import Mathlib

/-!
# Verification of the SchoolMenu plugin (`src/schoolmenu.py`)

Shallow embedding of the menu-resolution pipeline of the SchoolMenu plugin:
name normalization, menu-type resolution, month selection, raw-item
processing into a chronological mapping, settings parsing, the school-day
window selector and the subset handed to the renderer.

Conventions of the embedding:
* Python strings are Lean `String`s; helper functions work on `List Char`.
* Python dicts holding settings become a structure of `Option String`
  fields (a missing key is `none`); `dict.get(k, d)` becomes `Option.getD`.
* Python `date` objects become `Nat` absolute day numbers where day `0`
  falls on a Monday, so `weekday d = d % 7` (Monday = 0, as in Python).
* Fallible code returns `Except`; the network is abstracted by a
  `ProviderData` record giving the responses of the three queries.
-/

namespace SchoolMenu

/-! ## Name normalizer (`_normalize_name`) -/

/-- The whitespace characters stripped by Python `str.strip()` and matched
by the regex class used in `_normalize_name` (ASCII model). -/
def isPySpace (c : Char) : Bool :=
  c = ' ' || c = '\t' || c = '\n' || c = '\r' || c = '\x0b' || c = '\x0c'

/-- Python `str.strip()` on a character list: drop whitespace from both ends. -/
def stripChars (l : List Char) : List Char :=
  ((l.dropWhile isPySpace).reverse.dropWhile isPySpace).reverse

/-- Collapse every maximal run of whitespace to a single space, as
`re.sub(r"\s+", " ", s)` does.  The boolean records whether the previous
character was whitespace (in which case further whitespace is dropped). -/
def collapseWs : Bool → List Char → List Char
  | _, [] => []
  | prevSpace, c :: rest =>
    if isPySpace c then
      if prevSpace then collapseWs true rest
      else ' ' :: collapseWs true rest
    else c :: collapseWs false rest

/-- `_normalize_name`: `re.sub(r"\s+", " ", name.strip().lower())`. -/
def normalizeName (s : String) : String :=
  String.mk (collapseWs false ((stripChars s.data).map Char.toLower))

/-- `COMMON_MENU_ITEM_FILTER`: the static boilerplate list, normalized at
initialization. -/
def COMMON_MENU_ITEM_FILTER : List String :=
  ["Garden Bar:",
   "organic fresh fruits and veggies",
   "straus organic 1% milk",
   "non-fat milk"].map normalizeName

/-! ## Substring containment (Python `needle in hay`) -/

/-- `leadsWith hay needle`: `needle` occurs at the start of `hay`. -/
def leadsWith : List Char → List Char → Bool
  | _, [] => true
  | [], _ :: _ => false
  | a :: as, b :: bs => a = b && leadsWith as bs

/-- `containsSub needle hay`: Python `needle in hay` for strings. -/
def containsSub (needle : List Char) : List Char → Bool
  | [] => needle.isEmpty
  | c :: rest => leadsWith (c :: rest) needle || containsSub needle rest

/-! ## Menu type resolution (inside `fetch_menu_items`, lines 120–150) -/

/-- A menu type returned by the provider.  `mt.get("name", "")` in the
source means an absent name behaves as `""`, so `name` is a plain string. -/
structure MenuType where
  id : String
  name : String
  deriving Repr, DecidableEq

/-- The distinct failure modes of menu-name resolution (the source raises
`ValueError` with distinct messages; the spec names them NotFoundError /
AmbiguityError). -/
inductive ResolveError where
  /-- "No menuTypes returned for site" -/
  | noMenuTypes : ResolveError
  /-- "Ambiguous menu name (multiple exact matches)" -/
  | ambiguousExact : ResolveError
  /-- "Menu name not found. Available: ..." -/
  | notFound (available : List String) : ResolveError
  /-- "Ambiguous menu name. Candidates: ..." -/
  | ambiguousSub (candidates : List String) : ResolveError
  deriving Repr, DecidableEq

/-- Whether a candidate is an exact normalized match for the target. -/
def exactPred (target : String) (mt : MenuType) : Bool :=
  normalizeName mt.name = target

/-- Whether a candidate contains the target as a substring (after
normalization): `target in _normalize_name(mt.get("name", ""))`. -/
def subPred (target : String) (mt : MenuType) : Bool :=
  containsSub target.data (normalizeName mt.name).data

/-- Resolution of a human-readable menu name to a menuType id
(`fetch_menu_items`, lines 128–150): one exact normalized match wins;
with no exact match, one substring match wins; anything else fails. -/
def resolveMenuType (menuTypes : List MenuType) (menuName : String) :
    Except ResolveError String :=
  if menuTypes.isEmpty then .error .noMenuTypes
  else
    match menuTypes.filter (exactPred (normalizeName menuName)) with
    | [mt] => .ok mt.id
    | _ :: _ :: _ => .error .ambiguousExact
    | [] =>
      match menuTypes.filter (subPred (normalizeName menuName)) with
      | [mt] => .ok mt.id
      | [] => .error (.notFound (menuTypes.map MenuType.name))
      | mts@(_ :: _ :: _) => .error (.ambiguousSub (mts.map MenuType.name))

/-! ## Month selection (`fetch_menu_items`, lines 154–164) -/

/-- The `(month, year)` pairs queried, months 0-indexed for GraphQL:
always the current month; additionally the following month when the
day-of-month exceeds 20, rolling December over to January of the next
year.  Arguments are today's calendar month (1–12), day-of-month and year. -/
def monthsToFetch (month day year : Nat) : List (Nat × Nat) :=
  let base := [(month - 1, year)]
  if 20 < day then
    if month = 12 then base ++ [(0, year + 1)]
    else base ++ [(month, year)]
  else base

/-! ## Raw item processing (`fetch_menu_items`, lines 166–211) -/

/-- A raw provider item.  `month` is `some m` exactly when the JSON field
is present and an integer (`isinstance(raw_item_month, int)`); `year` is
the raw year field (`None` when absent; the source treats `0` as absent
too via `or`); `day` is the result of `int(day_raw)` with `none` standing
for a missing or non-numeric value; `productName` is the product's name
field (`None` when product or name is absent). -/
structure RawItem where
  month : Option Int := none
  year : Option Int := none
  day : Option Int := none
  productName : Option String := none

/-- Python `f"{n:02d}"`: pad the decimal representation to width two. -/
def format02 (n : Int) : String :=
  let s := toString n
  if s.length < 2 then "0" ++ s else s

/-- `date_key = f"{item_year}-{month_num:02d}-{day_int:02d}"`. -/
def dateKey (itemYear monthNum dayInt : Int) : String :=
  toString itemYear ++ "-" ++ format02 monthNum ++ "-" ++ format02 dayInt

/-- `by_date.setdefault(date_key, []).append(name)`: append to the entry
holding the key, or add a fresh singleton entry at the end. -/
def insertItem (byDate : List (String × List String)) (k name : String) :
    List (String × List String) :=
  if byDate.any (fun e => e.1 = k) then
    byDate.map (fun e => if e.1 = k then (e.1, e.2 ++ [name]) else e)
  else byDate ++ [(k, [name])]

/-- Processing of one raw item inside the month loop (lines 178–203):
resolve month and year, skip unparsable days and absent names, drop
boilerplate, insert the surviving name under its date key. -/
def processItem (mIdx year : Nat) (byDate : List (String × List String))
    (it : RawItem) : List (String × List String) :=
  let monthNum : Int := match it.month with
    | some m => m + 1
    | none => (mIdx : Int) + 1
  let itemYear : Int := match it.year with
    | none => (year : Int)
    | some y => if y = 0 then (year : Int) else y
  match it.day with
  | none => byDate
  | some dayInt =>
    let key := dateKey itemYear monthNum dayInt
    match it.productName with
    | none => byDate
    | some name =>
      if name = "" then byDate
      else if normalizeName name ∈ COMMON_MENU_ITEM_FILTER then byDate
      else insertItem byDate key name

/-- The accumulation over the fetched months: each batch is
`(month_index, year, items)` and its items are folded in provider order. -/
def buildByDate (batches : List (Nat × Nat × List RawItem)) :
    List (String × List String) :=
  batches.foldl (fun acc b => b.2.2.foldl (processItem b.1 b.2.1) acc) []

/-- `by_date[k]` for a key known to be present (`none` branch unreachable
on the keys the source iterates). -/
def lookupList (byDate : List (String × List String)) (k : String) :
    List String :=
  match byDate.find? (fun e => e.1 = k) with
  | some e => e.2
  | none => []

/-- Lines 205–211: rebuild the mapping over sorted keys, then drop
entries whose list is empty. -/
def orderAndFilter (byDate : List (String × List String)) :
    List (String × List String) :=
  let sortedKeys := List.insertionSort (· ≤ ·) (byDate.map Prod.fst)
  let ordered := sortedKeys.map (fun k => (k, lookupList byDate k))
  ordered.filter (fun e => !e.2.isEmpty)

/-! ## The fetch pipeline (`fetch_menu_items`) -/

/-- The provider side of the three GraphQL queries: the district's site
ids (organization query), the site's menu types, and the items returned
for a given menu type id, 0-indexed month and year. -/
structure ProviderData where
  districtSites : List String
  menuTypes : List MenuType
  monthItems : String → Nat → Nat → List RawItem

/-- Failures of `fetch_menu_items` (all `ValueError` in the source). -/
inductive FetchError where
  | validation (schoolId districtId : String) : FetchError
  | resolve (e : ResolveError) : FetchError

/-- `fetch_menu_items(district_id, site_id, menu_name)` with today's date
passed explicitly: district validation when `district_id` is non-empty,
menu-type resolution, month selection, item accumulation, ordering and
filtering. -/
def fetchMenuItems (p : ProviderData) (districtId siteId menuName : String)
    (todayMonth todayDay todayYear : Nat) :
    Except FetchError (List (String × List String)) :=
  if districtId ≠ "" && !(p.districtSites.contains siteId) then
    .error (.validation siteId districtId)
  else
    match resolveMenuType p.menuTypes menuName with
    | .error e => .error (.resolve e)
    | .ok menuTypeId =>
      let batches := (monthsToFetch todayMonth todayDay todayYear).map
        (fun my => (my.1, my.2, p.monthItems menuTypeId my.1 my.2))
      .ok (orderAndFilter (buildByDate batches))

/-! ## Settings parsing (`SchoolMenu._parse_settings`) -/

/-- Python `str.strip()`. -/
def pyStrip (s : String) : String := String.mk (stripChars s.data)

/-- Python `int(s)` on a string value (ASCII model): optional surrounding
whitespace, optional sign, at least one decimal digit. -/
def pyParseInt (s : String) : Option Int :=
  let t := stripChars s.data
  let signDigits : Bool × List Char := match t with
    | '-' :: rest => (true, rest)
    | '+' :: rest => (false, rest)
    | rest => (false, rest)
  let digits := signDigits.2
  if digits.isEmpty || !digits.all Char.isDigit then none
  else
    let v : Nat := digits.foldl (fun acc c => acc * 10 + (c.toNat - '0'.toNat)) 0
    some (if signDigits.1 then -(v : Int) else (v : Int))

def MIN_DAYS : Int := 1
def MAX_DAYS : Int := 5
def PENDING_TEXT : String := "Not yet published"

/-- Lines 337–342: `days = int(settings.get("numDays", 3))` guarded by
`try`/`except` (fall back to 3) and the range check (outside
`MIN_DAYS..MAX_DAYS` falls back to 3).  A missing key yields the integer
default 3 directly. -/
def parseNumDays (raw : Option String) : Int :=
  let days : Int := match raw with
    | none => 3
    | some s => match pyParseInt s with
      | some v => v
      | none => 3
  if MIN_DAYS ≤ days ∧ days ≤ MAX_DAYS then days else 3

/-- `str(x).lower() in {"1", "true", "yes", "on"}` for a string value. -/
def pyTruthyFlag (s : String) : Bool :=
  let l := String.mk (s.data.map Char.toLower)
  l = "1" || l = "true" || l = "yes" || l = "on"

/-- `FONT_SIZES` (source floats rendered as rationals). -/
def FONT_SIZES : List (String × Rat) :=
  [("x-small", 6/10), ("smaller", 7/10), ("small", 8/10), ("normal", 1),
   ("large", 12/10), ("larger", 14/10), ("x-large", 16/10)]

/-- `FONT_SIZES.get(key, 1.0)`. -/
def fontScaleOf (key : String) : Rat :=
  match FONT_SIZES.find? (fun e => e.1 = key) with
  | some e => e.2
  | none => 1

/-- The raw settings dict restricted to its recognized keys; a missing
key is `none`, and all stored values are strings. -/
structure RawSettings where
  districtId : Option String := none
  schoolId : Option String := none
  menuName : Option String := none
  numDays : Option String := none
  showDate : Option String := none
  customTitle : Option String := none
  fontSize : Option String := none
  primaryColor : Option String := none
  textColor : Option String := none
  backgroundColor : Option String := none
  showTimestamp : Option String := none
  displayRefreshTime : Option String := none

/-- The `ParsedSettings` dataclass. -/
structure ParsedSettings where
  district_id : String
  school_id : String
  menu_name : String
  days : Int
  title : String
  show_date : Bool
  font_scale : Rat
  primary_color : String
  text_color : String
  background_color : String
  show_timestamp : Bool

/-- `SchoolMenu._parse_settings` (lines 324–370); a raised `ValueError`
becomes `Except.error` carrying the message. -/
def parseSettings (s : RawSettings) : Except String ParsedSettings :=
  let district_id := pyStrip (s.districtId.getD "")
  if district_id = "" then .error "districtId is required"
  else
    let school_id := pyStrip (s.schoolId.getD "")
    if school_id = "" then .error "schoolId is required"
    else
      let menu_name := pyStrip (s.menuName.getD "")
      if menu_name = "" then .error "menuName is required"
      else
        .ok
          { district_id := district_id
            school_id := school_id
            menu_name := menu_name
            days := parseNumDays s.numDays
            title := pyStrip (s.customTitle.getD "School Lunch Menu")
            show_date := pyTruthyFlag (s.showDate.getD "true")
            font_scale := fontScaleOf (s.fontSize.getD "normal")
            primary_color := s.primaryColor.getD "#323296"
            text_color := s.textColor.getD "#000000"
            background_color := s.backgroundColor.getD "#ffffff"
            show_timestamp :=
              pyTruthyFlag (s.showTimestamp.getD
                (s.displayRefreshTime.getD "true")) }

/-! ## School-day window (`_next_school_days`) and the rendered subset
(`generate_image`, lines 245–278) -/

/-- The `while len(out) < n` loop of `_next_school_days`: dates are `Nat`
day numbers with day 0 a Monday, so `cur % 7` is Python's `weekday()`. -/
def nextSchoolDaysAux : Nat → Nat → List Nat
  | _, 0 => []
  | cur, n + 1 =>
    if cur % 7 < 5 then cur :: nextSchoolDaysAux (cur + 1) n
    else nextSchoolDaysAux (cur + 1) (n + 1)
termination_by cur n => n * 7 + (if cur % 7 < 5 then 0 else 7 - cur % 7)
decreasing_by
  all_goals simp_wf
  all_goals split_ifs <;> omega

/-- `_next_school_days(n)` starting from today. -/
def nextSchoolDays (today n : Nat) : List Nat := nextSchoolDaysAux today n

/-- The loop over `target_days` in `generate_image` (lines 267–278),
with the fetched mapping abstracted as a partial date-indexed lookup
(ISO formatting of dates is injective, so dates themselves serve as
keys). -/
def dayEntry (today : Nat) (fetchOk : Bool)
    (allItems : Nat → Option (List String)) (d : Nat) : Nat × List String :=
  match allItems d with
  | some items => (d, items)
  | none =>
    if fetchOk = true ∧ today ≤ d then (d, [PENDING_TEXT]) else (d, [])

def buildMenuSubset (today : Nat) (fetchOk : Bool)
    (allItems : Nat → Option (List String)) (days : Nat) :
    List (Nat × List String) :=
  (nextSchoolDays today days).map (dayEntry today fetchOk allItems)

/-- The degraded mapping installed when the fetch raises (lines 263–264):
`{today: ["Menu not available"]}`. -/
def fallbackItems (today : Nat) : Nat → Option (List String) :=
  fun d => if d = today then some ["Menu not available"] else none

/-- The subset handed to the renderer: `fetchResult` is `some f` when the
fetch pipeline succeeded with mapping `f`, `none` when it raised. -/
def generateSubset (today : Nat)
    (fetchResult : Option (Nat → Option (List String))) (days : Nat) :
    List (Nat × List String) :=
  match fetchResult with
  | some f => buildMenuSubset today true f days
  | none => buildMenuSubset today false (fallbackItems today) days

/-- The invariant maintained by the `by_date` accumulator: keys are
distinct, every stored list is non-empty, and no stored name normalizes
into the boilerplate filter set. -/
def GoodByDate (b : List (String × List String)) : Prop :=
  (b.map Prod.fst).Nodup ∧
  (∀ e ∈ b, e.2 ≠ []) ∧
  (∀ e ∈ b, ∀ nm ∈ e.2, normalizeName nm ∉ COMMON_MENU_ITEM_FILTER)

/-! ## Resolver lemmas -/

theorem leadsWith_self (l : List Char) : leadsWith l l = true := by
  induction l with
  | nil => rfl
  | cons a as ih => simp [leadsWith, ih]

theorem containsSub_self (l : List Char) : containsSub l l = true := by
  cases l with
  | nil => rfl
  | cons c rest => simp [containsSub, leadsWith_self]

theorem exactPred_imp_subPred (t : String) (mt : MenuType)
    (h : exactPred t mt = true) : subPred t mt = true := by
  simp only [exactPred, decide_eq_true_eq] at h
  simp only [subPred]
  rw [h]
  exact containsSub_self t.data

theorem exact_filter_sublist (mts : List MenuType) (t : String) :
    List.Sublist (mts.filter (exactPred t)) (mts.filter (subPred t)) :=
  List.monotone_filter_right mts (fun a h => exactPred_imp_subPred t a h)

theorem resolveMenuType_eq (mts : List MenuType) (nm : String)
    (hne : mts ≠ []) :
    resolveMenuType mts nm =
      match mts.filter (exactPred (normalizeName nm)) with
      | [mt] => .ok mt.id
      | _ :: _ :: _ => .error .ambiguousExact
      | [] =>
        match mts.filter (subPred (normalizeName nm)) with
        | [mt] => .ok mt.id
        | [] => .error (.notFound (mts.map MenuType.name))
        | ms@(_ :: _ :: _) => .error (.ambiguousSub (ms.map MenuType.name)) := by
  obtain ⟨a, l, rfl⟩ := List.exists_cons_of_ne_nil hne
  simp [resolveMenuType]

/-- C3: when exactly one candidate's normalized name equals the
normalized target, resolution returns that candidate's id — whatever the
order of the candidates and however many of them contain the target as a
substring. -/
theorem resolve_unique_exact (mts : List MenuType) (nm : String)
    (mt : MenuType)
    (h : mts.filter (exactPred (normalizeName nm)) = [mt]) :
    resolveMenuType mts nm = .ok mt.id := by
  have hne : mts ≠ [] := by
    intro e
    rw [e] at h
    simp at h
  rw [resolveMenuType_eq mts nm hne, h]

/-- C3 witness: a two-candidate list where the second is the unique exact
match (the first matches only as a substring). -/
theorem resolve_unique_exact_witness :
    resolveMenuType [⟨"7", "Lunch Elementary Schools"⟩, ⟨"9", "Lunch"⟩]
      "  LUNCH " = .ok "9" :=
  resolve_unique_exact _ _ ⟨"9", "Lunch"⟩ (by decide)

/-- C4: resolution fails exactly when there is not exactly one exact
match and not exactly one substring match; two or more exact matches give
the exact-ambiguity error, zero exact and zero substring matches give the
not-found error listing every candidate name, and zero exact with two or
more substring matches gives the ambiguity error listing the matching
names. -/
theorem resolve_failure_cases (mts : List MenuType) (nm : String)
    (hne : mts ≠ []) :
    ((resolveMenuType mts nm).isOk = false ↔
      (mts.filter (exactPred (normalizeName nm))).length ≠ 1 ∧
      (mts.filter (subPred (normalizeName nm))).length ≠ 1) ∧
    (2 ≤ (mts.filter (exactPred (normalizeName nm))).length →
      resolveMenuType mts nm = .error .ambiguousExact) ∧
    ((mts.filter (exactPred (normalizeName nm))).length = 0 →
      (mts.filter (subPred (normalizeName nm))).length = 0 →
      resolveMenuType mts nm = .error (.notFound (mts.map MenuType.name))) ∧
    ((mts.filter (exactPred (normalizeName nm))).length = 0 →
      2 ≤ (mts.filter (subPred (normalizeName nm))).length →
      resolveMenuType mts nm = .error
        (.ambiguousSub
          ((mts.filter (subPred (normalizeName nm))).map MenuType.name))) := by
  have hred := resolveMenuType_eq mts nm hne
  have hlen := (exact_filter_sublist mts (normalizeName nm)).length_le
  rcases hE : mts.filter (exactPred (normalizeName nm)) with _ | ⟨m, _ | ⟨m2, rest⟩⟩ <;>
    rw [hE] at hred hlen
  · rcases hS : mts.filter (subPred (normalizeName nm)) with _ | ⟨m', _ | ⟨m2', rest'⟩⟩ <;>
      rw [hS] at hred <;>
      simp_all [Except.isOk, Except.toBool]
  · simp_all [Except.isOk, Except.toBool]
  · simp_all [Except.isOk, Except.toBool]
    omega

/-- C4 witness: two candidates, no exact and no substring match for the
target, so resolution reports not-found listing both names. -/
theorem resolve_failure_cases_witness :
    resolveMenuType [⟨"1", "Breakfast"⟩, ⟨"2", "Supper"⟩] "Lunch" =
      .error (.notFound ["Breakfast", "Supper"]) :=
  ((resolve_failure_cases [⟨"1", "Breakfast"⟩, ⟨"2", "Supper"⟩] "Lunch"
    (by decide)).2.2.1 (by decide) (by decide))

/-! ## Month-selection theorem -/

/-- C5: the `(month, year)` pairs queried are exactly the current month
(0-indexed) plus, exactly when the day-of-month exceeds 20, the following
month, where December of year `y` is followed by January of year `y+1`. -/
theorem months_to_fetch_spec (month day year : Nat)
    (h1 : 1 ≤ month) (h2 : month ≤ 12) :
    ∀ p : Nat × Nat, p ∈ monthsToFetch month day year ↔
      (p = (month - 1, year) ∨
        (20 < day ∧
          p = (if month = 12 then (0, year + 1) else (month, year)))) := by
  intro p
  simp only [monthsToFetch]
  split_ifs <;> simp_all

/-- C5 witness: on 2025-12-25 both December 2025 (index 11) and January
2026 (index 0) are queried. -/
theorem months_to_fetch_spec_witness :
    (0, 2026) ∈ monthsToFetch 12 25 2025 :=
  (months_to_fetch_spec 12 25 2025 (by decide) (by decide) (0, 2026)).mpr
    (Or.inr ⟨by decide, by decide⟩)

/-! ## Window-selector lemmas -/

theorem nextSchoolDaysAux_zero (cur : Nat) : nextSchoolDaysAux cur 0 = [] := by
  rw [nextSchoolDaysAux]

theorem nextSchoolDaysAux_stop (cur n : Nat) (h : cur % 7 < 5) :
    nextSchoolDaysAux cur (n + 1) = cur :: nextSchoolDaysAux (cur + 1) n := by
  rw [nextSchoolDaysAux]
  simp [h]

theorem nextSchoolDaysAux_skip (cur n : Nat) (h : ¬ cur % 7 < 5) :
    nextSchoolDaysAux cur n = nextSchoolDaysAux (cur + 1) n := by
  cases n with
  | zero => simp [nextSchoolDaysAux_zero]
  | succ m =>
    rw [nextSchoolDaysAux]
    simp [h]

theorem nextSchoolDaysAux_length (cur n : Nat) :
    (nextSchoolDaysAux cur n).length = n := by
  induction cur, n using nextSchoolDaysAux.induct with
  | case1 cur => simp [nextSchoolDaysAux_zero]
  | case2 cur n h ih => rw [nextSchoolDaysAux_stop cur n h]; simp [ih]
  | case3 cur n h ih => rw [nextSchoolDaysAux_skip cur (n + 1) h]; exact ih

theorem nextSchoolDaysAux_mem (cur n : Nat) :
    ∀ d ∈ nextSchoolDaysAux cur n, cur ≤ d ∧ d % 7 < 5 := by
  induction cur, n using nextSchoolDaysAux.induct with
  | case1 cur => simp [nextSchoolDaysAux_zero]
  | case2 cur n h ih =>
    rw [nextSchoolDaysAux_stop cur n h]
    intro d hd
    rcases List.mem_cons.mp hd with rfl | hd'
    · exact ⟨Nat.le_refl d, h⟩
    · have := ih d hd'
      exact ⟨by omega, this.2⟩
  | case3 cur n h ih =>
    rw [nextSchoolDaysAux_skip cur (n + 1) h]
    intro d hd
    have := ih d hd
    exact ⟨by omega, this.2⟩

/-- C7: for every `n` in `[1, 5]` the selector returns exactly `n` dates,
all of them weekdays at-or-after today; started on a Saturday with
`n = 5` it returns exactly the following Monday through Friday. -/
theorem next_school_days_spec (today n : Nat) (h1 : 1 ≤ n) (h2 : n ≤ 5) :
    (nextSchoolDays today n).length = n ∧
    (∀ d ∈ nextSchoolDays today n, d % 7 < 5 ∧ today ≤ d) ∧
    (today % 7 = 5 →
      nextSchoolDays today 5 =
        [today + 2, today + 3, today + 4, today + 5, today + 6]) := by
  refine ⟨nextSchoolDaysAux_length today n, ?_, ?_⟩
  · intro d hd
    have := nextSchoolDaysAux_mem today n d hd
    exact ⟨this.2, this.1⟩
  · intro hsat
    have m1 : (today + 1) % 7 = 6 := by omega
    have m2 : (today + 2) % 7 = 0 := by omega
    have m3 : (today + 3) % 7 = 1 := by omega
    have m4 : (today + 4) % 7 = 2 := by omega
    have m5 : (today + 5) % 7 = 3 := by omega
    have m6 : (today + 6) % 7 = 4 := by omega
    show nextSchoolDaysAux today 5 = _
    rw [nextSchoolDaysAux_skip today 5 (by omega),
      nextSchoolDaysAux_skip (today + 1) 5 (by omega),
      nextSchoolDaysAux_stop (today + 2) 4 (by omega),
      nextSchoolDaysAux_stop (today + 3) 3 (by omega),
      nextSchoolDaysAux_stop (today + 4) 2 (by omega),
      nextSchoolDaysAux_stop (today + 5) 1 (by omega),
      nextSchoolDaysAux_stop (today + 6) 0 (by omega),
      nextSchoolDaysAux_zero]

/-- C7 witness: day 5 is a Saturday in the embedding, and the five
school days from it are days 7–11 (Monday through Friday). -/
theorem next_school_days_spec_witness :
    nextSchoolDays 5 5 = [7, 8, 9, 10, 11] :=
  (next_school_days_spec 5 5 (by decide) (by decide)).2.2 (by decide)

/-! ## Rendered-subset lemmas -/

theorem nextSchoolDays_length (today n : Nat) :
    (nextSchoolDays today n).length = n :=
  nextSchoolDaysAux_length today n

theorem dayEntry_fst (today : Nat) (ok : Bool)
    (f : Nat → Option (List String)) (d : Nat) :
    (dayEntry today ok f d).1 = d := by
  cases h : f d with
  | some items => simp [dayEntry, h]
  | none =>
    simp only [dayEntry, h]
    split_ifs <;> rfl

theorem map_fst_buildMenuSubset (today : Nat) (ok : Bool)
    (f : Nat → Option (List String)) (days : Nat) :
    (buildMenuSubset today ok f days).map Prod.fst =
      nextSchoolDays today days := by
  simp only [buildMenuSubset, List.map_map]
  rw [show Prod.fst ∘ dayEntry today ok f = id from
    funext fun d => dayEntry_fst today ok f d, List.map_id]

theorem nextSchoolDays_zero_one : nextSchoolDays 0 1 = [0] := by
  show nextSchoolDaysAux 0 1 = [0]
  rw [nextSchoolDaysAux_stop 0 0 (by norm_num), nextSchoolDaysAux_zero]

theorem mem_generateSubset_fail_ex :
    (0, ["Menu not available"]) ∈ generateSubset 0 none 1 := by
  simp [generateSubset, buildMenuSubset, nextSchoolDays_zero_one, dayEntry,
    fallbackItems]

theorem fallbackEntry_cases (today days : Nat) (p : Nat × List String)
    (hp : p ∈ generateSubset today none days) :
    (p.1 = today → p.2 = ["Menu not available"]) ∧
    (p.1 ≠ today → p.2 = []) := by
  simp only [generateSubset, buildMenuSubset] at hp
  obtain ⟨d, hd, rfl⟩ := List.mem_map.mp hp
  rw [dayEntry_fst]
  by_cases hdt : d = today
  · subst hdt
    exact ⟨fun _ => by simp [dayEntry, fallbackItems],
      fun hne => absurd rfl hne⟩
  · exact ⟨fun he => absurd he hdt,
      fun _ => by simp [dayEntry, fallbackItems, hdt]⟩

/-- C10: every selected school day is at or after today, so on a
successful fetch every selected day absent from the fetched mapping gets
the pending placeholder, and on a successful fetch the empty-list branch
is never taken (an empty value can only be one stored in the fetched
mapping itself). -/
theorem window_pending_semantics (today : Nat) :
    (∀ n d, d ∈ nextSchoolDays today n → today ≤ d) ∧
    (∀ (f : Nat → Option (List String)) (days : Nat) p,
      p ∈ generateSubset today (some f) days →
      f p.1 = none → p.2 = [PENDING_TEXT]) ∧
    (∀ (f : Nat → Option (List String)) (days : Nat) p,
      p ∈ generateSubset today (some f) days →
      p.2 = [] → f p.1 = some []) := by
  refine ⟨?_, ?_, ?_⟩
  · intro n d hd
    exact (nextSchoolDaysAux_mem today n d hd).1
  · intro f days p hp hnone
    simp only [generateSubset, buildMenuSubset] at hp
    obtain ⟨d, hd, rfl⟩ := List.mem_map.mp hp
    have hge := (nextSchoolDaysAux_mem today days d hd).1
    rw [dayEntry_fst] at hnone
    simp [dayEntry, hnone, hge]
  · intro f days p hp hempty
    simp only [generateSubset, buildMenuSubset] at hp
    obtain ⟨d, hd, rfl⟩ := List.mem_map.mp hp
    have hge := (nextSchoolDaysAux_mem today days d hd).1
    rw [dayEntry_fst]
    cases hfd : f d with
    | some items =>
      simp [dayEntry, hfd] at hempty
      simp [hempty]
    | none =>
      exfalso
      simp [dayEntry, hfd, hge, PENDING_TEXT] at hempty

/-- C10 witness: a successful fetch with an everywhere-empty mapping
gives today's entry the pending placeholder. -/
theorem window_pending_semantics_witness :
    ((0, [PENDING_TEXT]) : Nat × List String).2 = [PENDING_TEXT] :=
  (window_pending_semantics 0).2.1 (fun _ => none) 1 (0, [PENDING_TEXT])
    (by simp [generateSubset, buildMenuSubset, nextSchoolDays_zero_one,
      dayEntry])
    rfl

/-- C2 counterexample: with the fetch failing and today (day 0, a Monday)
among the selected days, today's entry is `["Menu not available"]`, not
the empty list the claim requires for every selected day. -/
theorem fetch_failure_empty_cex :
    ¬ (∀ p ∈ generateSubset 0 none 1, p.2 = ([] : List String)) := by
  intro h
  have := h _ mem_generateSubset_fail_ex
  simp at this

/-- C2 amended: when the fetch fails, every selected school day other
than today maps to the empty list, while today — when selected — maps to
the fallback `["Menu not available"]`. -/
theorem fetch_failure_values (today days : Nat) :
    ∀ p ∈ generateSubset today none days,
      (p.1 = today → p.2 = ["Menu not available"]) ∧
      (p.1 ≠ today → p.2 = []) := by
  intro p hp
  exact fallbackEntry_cases today days p hp

/-- C2 witness: the failure fallback at today itself. -/
theorem fetch_failure_values_witness :
    ((0, ["Menu not available"]) : Nat × List String).2 =
      ["Menu not available"] :=
  (fetch_failure_values 0 1 (0, ["Menu not available"])
    mem_generateSubset_fail_ex).1 rfl

/-- C9 counterexample: on a failed fetch today's entry is
`["Menu not available"]`, which is neither a fetched list (there is no
fetched mapping), nor the pending placeholder, nor the empty list. -/
theorem subset_values_cex :
    ¬ (∀ p ∈ generateSubset 0 none 1,
        (∃ f, (none : Option (Nat → Option (List String))) = some f ∧
            f p.1 = some p.2) ∨
          p.2 = [PENDING_TEXT] ∨ p.2 = ([] : List String)) := by
  intro h
  rcases h _ mem_generateSubset_fail_ex with ⟨f, hf, _⟩ | hp | hp
  · exact Option.noConfusion hf
  · simp [PENDING_TEXT] at hp
  · simp at hp

/-- C9 amended: for every fetch outcome the subset has exactly `days`
entries, keyed by the selected school days in selection order, and every
value is the fetched list for that date or the pending placeholder (on
success), or the fallback `["Menu not available"]` or the empty list (on
failure). -/
theorem subset_shape (today : Nat)
    (fr : Option (Nat → Option (List String))) (days : Nat) :
    (generateSubset today fr days).length = days ∧
    (generateSubset today fr days).map Prod.fst =
      nextSchoolDays today days ∧
    ∀ p ∈ generateSubset today fr days,
      (∀ f, fr = some f → f p.1 = some p.2 ∨ p.2 = [PENDING_TEXT]) ∧
      (fr = none → p.2 = ["Menu not available"] ∨ p.2 = []) := by
  refine ⟨?_, ?_, ?_⟩
  · cases fr <;>
      simp [generateSubset, buildMenuSubset, nextSchoolDays_length]
  · cases fr <;> exact map_fst_buildMenuSubset ..
  · intro p hp
    cases fr with
    | some f =>
      simp only [generateSubset, buildMenuSubset] at hp
      obtain ⟨d, hd, rfl⟩ := List.mem_map.mp hp
      refine ⟨?_, fun hnone => Option.noConfusion hnone⟩
      intro f' hf'
      obtain rfl : f = f' := by injection hf'
      rw [dayEntry_fst]
      cases hfd : f d with
      | some items => left; simp [dayEntry, hfd]
      | none =>
        right
        have hge := (nextSchoolDaysAux_mem today days d hd).1
        simp [dayEntry, hfd, hge]
    | none =>
      refine ⟨fun f' hf' => Option.noConfusion hf', fun _ => ?_⟩
      have hc := fallbackEntry_cases today days p hp
      by_cases hdt : p.1 = today
      · exact Or.inl (hc.1 hdt)
      · exact Or.inr (hc.2 hdt)

/-- C9 witness: one selected day, successful fetch carrying data for that
day; the subset has one entry and its value is the fetched list. -/
theorem subset_shape_witness :
    (generateSubset 0 (some fun _ => some ["Pizza"]) 1).length = 1 ∧
    ((fun _ => some ["Pizza"] : Nat → Option (List String))
        ((0, ["Pizza"]) : Nat × List String).1 =
        some ((0, ["Pizza"]) : Nat × List String).2 ∨
      ((0, ["Pizza"]) : Nat × List String).2 = [PENDING_TEXT]) :=
  ⟨(subset_shape 0 (some fun _ => some ["Pizza"]) 1).1,
    ((subset_shape 0 (some fun _ => some ["Pizza"]) 1).2.2 (0, ["Pizza"])
        (by simp [generateSubset, buildMenuSubset, nextSchoolDays_zero_one,
          dayEntry])).1
      (fun _ => some ["Pizza"]) rfl⟩

/-! ## Settings-parsing lemmas -/

theorem parseSettings_isOk_iff (s : RawSettings) :
    (parseSettings s).isOk = true ↔
      (pyStrip (s.districtId.getD "") ≠ "" ∧
        pyStrip (s.schoolId.getD "") ≠ "" ∧
        pyStrip (s.menuName.getD "") ≠ "") := by
  simp only [parseSettings]
  split_ifs <;> simp_all [Except.isOk, Except.toBool]

/-- C1 counterexample: a raw settings mapping with no `districtId` but
non-empty (after trimming) `schoolId` and `menuName` makes parsing fail
with "districtId is required" instead of succeeding. -/
theorem parse_district_optional_cex :
    pyStrip "894" ≠ "" ∧ pyStrip "Lunch Elementary Schools" ≠ "" ∧
    parseSettings { schoolId := some "894", menuName := some "Lunch Elementary Schools" } =
      .error "districtId is required" :=
  ⟨by decide, by decide, rfl⟩

/-- C1 amended: settings parsing treats `districtId` as mandatory —
parsing succeeds exactly when all three of `districtId`, `schoolId` and
`menuName` are non-empty after trimming; nevertheless, when the fetcher
itself is handed an empty `district_id` it skips district validation
entirely (its result does not depend on the district-sites response). -/
theorem parse_settings_mandatory_fields (s : RawSettings) :
    ((parseSettings s).isOk = true ↔
      (pyStrip (s.districtId.getD "") ≠ "" ∧
        pyStrip (s.schoolId.getD "") ≠ "" ∧
        pyStrip (s.menuName.getD "") ≠ "")) ∧
    (∀ (p : ProviderData) (sites : List String) (siteId mn : String)
        (tM tD tY : Nat),
      fetchMenuItems { p with districtSites := sites } "" siteId mn
          tM tD tY =
        fetchMenuItems p "" siteId mn tM tD tY) := by
  refine ⟨parseSettings_isOk_iff s, ?_⟩
  intro p sites siteId mn tM tD tY
  simp [fetchMenuItems]

/-- C8: a `numDays` of "0", "6", "abc" or a missing key all yield 3; in
general any value that fails integer parsing, or parses outside 1–5,
falls back to 3, and settings parsing still succeeds on such values. -/
theorem numdays_fallback :
    parseNumDays (some "0") = 3 ∧
    parseNumDays (some "6") = 3 ∧
    parseNumDays (some "abc") = 3 ∧
    parseNumDays none = 3 ∧
    (∀ s, pyParseInt s = none → parseNumDays (some s) = 3) ∧
    (∀ s v, pyParseInt s = some v → ¬ (1 ≤ v ∧ v ≤ 5) →
      parseNumDays (some s) = 3) ∧
    (∀ raw : RawSettings, pyStrip (raw.districtId.getD "") ≠ "" →
      pyStrip (raw.schoolId.getD "") ≠ "" →
      pyStrip (raw.menuName.getD "") ≠ "" →
      (parseSettings raw).isOk = true) := by
  refine ⟨by decide, by decide, by decide, by decide, ?_, ?_, ?_⟩
  · intro s h
    simp [parseNumDays, h, MIN_DAYS, MAX_DAYS]
  · intro s v h hnot
    simp only [parseNumDays, h]
    rw [if_neg]
    simpa [MIN_DAYS, MAX_DAYS] using hnot
  · intro raw h1 h2 h3
    exact (parseSettings_isOk_iff raw).mpr ⟨h1, h2, h3⟩

/-- C8 witness: the unparsable value "abc" falls back to 3 and does not
make settings parsing fail. -/
theorem numdays_fallback_witness :
    parseNumDays (some "abc") = 3 ∧
    (parseSettings { districtId := some "1", schoolId := some "894", menuName := some "Lunch", numDays := some "abc" }).isOk = true :=
  ⟨numdays_fallback.2.2.2.2.1 "abc" rfl,
    numdays_fallback.2.2.2.2.2.2 _ (by decide) (by decide) (by decide)⟩

/-! ## Fetched-mapping invariants -/

theorem goodByDate_nil : GoodByDate [] := by
  refine ⟨List.nodup_nil, ?_, ?_⟩ <;> simp

theorem insertItem_good (b : List (String × List String)) (k name : String)
    (hb : GoodByDate b)
    (hname : normalizeName name ∉ COMMON_MENU_ITEM_FILTER) :
    GoodByDate (insertItem b k name) := by
  obtain ⟨hnd, hne, hflt⟩ := hb
  unfold insertItem
  split_ifs with hany
  · refine ⟨?_, ?_, ?_⟩
    · have hfst :
          (b.map (fun e => if e.1 = k then (e.1, e.2 ++ [name]) else e)).map
            Prod.fst = b.map Prod.fst := by
        rw [List.map_map]
        exact List.map_congr_left (fun e _ => by
          simp only [Function.comp_apply]
          split_ifs <;> rfl)
      rw [hfst]
      exact hnd
    · intro e he
      obtain ⟨e', _, rfl⟩ := List.mem_map.mp he
      split_ifs with h
      · simp
      · exact hne e' ‹e' ∈ b›
    · intro e he nm hnm
      obtain ⟨e', he', rfl⟩ := List.mem_map.mp he
      by_cases h : e'.1 = k
      · simp only [h, if_pos] at hnm
        rcases List.mem_append.mp hnm with hmem | hmem
        · exact hflt e' he' nm hmem
        · rw [List.mem_singleton.mp hmem]
          exact hname
      · simp only [h, if_neg, not_false_iff] at hnm
        exact hflt e' he' nm hnm
  · have hnotin : k ∉ b.map Prod.fst := by
      simp only [List.any_eq_true, decide_eq_true_eq] at hany
      intro hk
      obtain ⟨e, he, hek⟩ := List.mem_map.mp hk
      exact hany ⟨e, he, hek⟩
    refine ⟨?_, ?_, ?_⟩
    · rw [List.map_append]
      exact List.nodup_append.mpr
        ⟨hnd, List.nodup_singleton k, by simpa using hnotin⟩
    · intro e he
      rcases List.mem_append.mp he with hmem | hmem
      · exact hne e hmem
      · rw [List.mem_singleton.mp hmem]
        simp
    · intro e he nm hnm
      rcases List.mem_append.mp he with hmem | hmem
      · exact hflt e hmem nm hnm
      · rw [List.mem_singleton.mp hmem] at hnm
        rw [List.mem_singleton.mp hnm]
        exact hname

theorem processItem_good (m y : Nat) (b : List (String × List String))
    (it : RawItem) (hb : GoodByDate b) :
    GoodByDate (processItem m y b it) := by
  rcases hday : it.day with _ | d <;>
    rcases hpn : it.productName with _ | name <;>
    simp only [processItem, hday, hpn] <;>
    try exact hb
  split_ifs with h1 h2
  · exact hb
  · exact hb
  · exact insertItem_good _ _ _ hb h2

theorem foldl_processItem_good (m y : Nat) (items : List RawItem)
    (b : List (String × List String)) (hb : GoodByDate b) :
    GoodByDate (items.foldl (processItem m y) b) := by
  induction items generalizing b with
  | nil => exact hb
  | cons it rest ih => exact ih _ (processItem_good m y b it hb)

theorem buildByDate_good (batches : List (Nat × Nat × List RawItem)) :
    GoodByDate (buildByDate batches) := by
  unfold buildByDate
  have hstep :
      ∀ (bs : List (Nat × Nat × List RawItem)) b, GoodByDate b →
        GoodByDate
          (bs.foldl
            (fun acc bt => bt.2.2.foldl (processItem bt.1 bt.2.1) acc) b) := by
    intro bs
    induction bs with
    | nil => intro b hb; exact hb
    | cons bt rest ih =>
      intro b hb
      exact ih _ (foldl_processItem_good bt.1 bt.2.1 bt.2.2 b hb)
  exact hstep _ _ goodByDate_nil

theorem orderAndFilter_spec (b : List (String × List String))
    (hb : GoodByDate b) :
    ((orderAndFilter b).map Prod.fst).Sorted (· < ·) ∧
    (∀ e ∈ orderAndFilter b, e.2 ≠ []) ∧
    (∀ e ∈ orderAndFilter b, ∀ nm ∈ e.2,
      normalizeName nm ∉ COMMON_MENU_ITEM_FILTER) := by
  obtain ⟨hnd, _, hflt⟩ := hb
  refine ⟨?_, ?_, ?_⟩
  · have hperm := List.perm_insertionSort (· ≤ ·) (b.map Prod.fst)
    have hnd' : (List.insertionSort (· ≤ ·) (b.map Prod.fst)).Nodup :=
      hperm.nodup_iff.mpr hnd
    have hlt :
        (List.insertionSort (· ≤ ·) (b.map Prod.fst)).Sorted (· < ·) :=
      (List.sorted_insertionSort (· ≤ ·) (b.map Prod.fst)).lt_of_le hnd'
    have hmapfst :
        ((List.insertionSort (· ≤ ·) (b.map Prod.fst)).map
          (fun k => (k, lookupList b k))).map Prod.fst =
          List.insertionSort (· ≤ ·) (b.map Prod.fst) := by
      rw [List.map_map]
      exact List.map_id _
    have hsub : List.Sublist ((orderAndFilter b).map Prod.fst)
        (List.insertionSort (· ≤ ·) (b.map Prod.fst)) := by
      rw [← hmapfst]
      exact (List.filter_sublist _).map Prod.fst
    exact List.Pairwise.sublist hsub hlt
  · intro e he
    have := (List.mem_filter.mp he).2
    simpa using this
  · intro e he nm hnm
    have hmem := (List.mem_filter.mp he).1
    obtain ⟨kk, _, rfl⟩ := List.mem_map.mp hmem
    simp only [lookupList] at hnm
    rcases hf : b.find? (fun e => e.1 = kk) with _ | e'
    · rw [hf] at hnm
      simp at hnm
    · rw [hf] at hnm
      exact hflt e' (List.mem_of_find?_eq_some hf) nm hnm

/-- C6: every successful fetch result has its date keys strictly sorted
(hence no duplicates), no entry with an empty item list, and no stored
item whose normalized name belongs to the boilerplate filter set. -/
theorem fetch_result_invariants (p : ProviderData) (dId sId mn : String)
    (tM tD tY : Nat) (res : List (String × List String))
    (h : fetchMenuItems p dId sId mn tM tD tY = .ok res) :
    ((res.map Prod.fst).Sorted (· < ·)) ∧
    (∀ e ∈ res, e.2 ≠ []) ∧
    (∀ e ∈ res, ∀ nm ∈ e.2,
      normalizeName nm ∉ COMMON_MENU_ITEM_FILTER) := by
  simp only [fetchMenuItems] at h
  split at h
  · exact absurd h (by simp)
  · split at h
    · exact absurd h (by simp)
    · obtain rfl : res = _ := (Except.ok.injEq _ _).mp h.symm
      exact orderAndFilter_spec _ (buildByDate_good _)

/-- C6 witness: a provider returning one kept item on 2025-10-05. -/
theorem fetch_result_invariants_witness :
    (([("2025-10-05", ["Pizza"])] : List (String × List String)).map
      Prod.fst).Sorted (· < ·) :=
  (fetch_result_invariants
    { districtSites := ["894"], menuTypes := [⟨"1", "Lunch"⟩],
      monthItems := fun _ _ _ =>
        [{ day := some 5, productName := some "Pizza" }] }
    "d1" "894" "lunch" 10 12 2025 [("2025-10-05", ["Pizza"])] rfl).1

end SchoolMenu
